import Mathlib

/-!
Verification of the duplex streaming session controller in `src/App.tsx`.

The definitions below are a shallow embedding of the code: React state and
refs become fields of explicit state records, event handlers become state
transformers, and the Web Audio scheduling arithmetic is carried out over `ℚ`.
Each definition's doc comment points at the lines of `src/App.tsx` it embeds.
-/

/-- Role of a chat message (`'user' | 'assistant'` in `src/types`). -/
inductive Role where
  | user
  | assistant
deriving DecidableEq, Repr

/-- One entry of the message log (`Message` in `src/types`, used at
`src/App.tsx:50`): role, text and a creation timestamp. -/
structure Message where
  role : Role
  text : String
  timestamp : Nat
deriving DecidableEq, Repr

/-- JavaScript `arr.slice(-5)` on the message list (`src/App.tsx:48` and
`src/App.tsx:50`): keep the most recent five entries. -/
def slice5 (l : List Message) : List Message := l.drop (l.length - 5)

/-- Embedding of `addMessage` (`src/App.tsx:41-52`).  Empty text is ignored;
if the last stored entry exists and has the same role as the new one and that
role is `assistant`, the new text is concatenated into the last entry in
place; otherwise a fresh entry is appended; both branches end with
`slice(-5)`. -/
def addMessage (prev : List Message) (role : Role) (text : String) (now : Nat) :
    List Message :=
  if text = "" then prev
  else
    match prev.getLast? with
    | some last =>
        if last.role = role ∧ role = Role.assistant then
          slice5 (prev.dropLast ++ [{ last with text := last.text ++ text }])
        else
          slice5 (prev ++ [⟨role, text, now⟩])
    | none => slice5 (prev ++ [⟨role, text, now⟩])

/-- Connection status of the session (`ConnectionStatus` in `src/types`). -/
inductive ConnectionStatus where
  | disconnected
  | connecting
  | connected
  | error
deriving DecidableEq, Repr

/-- Lifecycle status of one scheduled `AudioBufferSourceNode`. -/
inductive HandleStatus where
  | playing
  | finished
  | stopped
deriving DecidableEq, Repr

/-- One scheduled audio segment: the `AudioBufferSourceNode` created at
`src/App.tsx:165-174`, with the offset it was started at, the duration of its
buffer, and its playback status. -/
structure SourceNode where
  startTime : ℚ
  duration : ℚ
  status : HandleStatus
deriving DecidableEq, Repr

/-- The playback-scheduler slice of the component state:
`nextStartTimeRef` (`src/App.tsx:30`), `sourcesRef` (`src/App.tsx:31`) and the
`isSpeaking` React state (`src/App.tsx:16`). -/
structure SchedState where
  nextStartTime : ℚ
  sources : List SourceNode
  isSpeaking : Bool
deriving DecidableEq, Repr

/-- Embedding of the audio-delta branch of `onmessage` (`src/App.tsx:159-174`):
`setIsSpeaking(true)`, `nextStart = max(nextStart, ctx.currentTime)`, start a
source exactly at `nextStart`, advance `nextStart` by the buffer duration and
register the source.  `now` is `ctx.currentTime` at the moment of the enqueue
and `d` is `audioBuffer.duration`.  Returns the new state and the scheduled
start offset. -/
def enqueue (st : SchedState) (now d : ℚ) : SchedState × ℚ :=
  let start := max st.nextStartTime now
  ({ nextStartTime := start + d
     sources := st.sources ++ [⟨start, d, HandleStatus.playing⟩]
     isSpeaking := true }, start)

/-- Run a sequence of enqueues (`(now, duration)` pairs) with no intervening
purge, collecting the scheduled start offsets in order. -/
def runEnqueues (st : SchedState) : List (ℚ × ℚ) → SchedState × List ℚ
  | [] => (st, [])
  | (t, d) :: rest =>
      let p := enqueue st t d
      let q := runEnqueues p.1 rest
      (q.1, p.2 :: q.2)

/-- Semantics of `AudioBufferSourceNode.stop()` as the code treats it
(`src/App.tsx:179`): stopping a node whose playback already finished may raise,
stopping a live node moves it to `stopped`. -/
def stopSource (h : SourceNode) : Except String SourceNode :=
  match h.status with
  | HandleStatus.finished => Except.error "InvalidStateError"
  | _ => Except.ok { h with status := HandleStatus.stopped }

/-- The guarded `try { s.stop(); } catch(e) {}` of `src/App.tsx:179`: a raise
from an already-finished node is swallowed and the node left as it was. -/
def tryStopSource (h : SourceNode) : SourceNode :=
  match stopSource h with
  | Except.ok h2 => h2
  | Except.error _ => h

/-- Embedding of the `interrupted` branch of `onmessage` (`src/App.tsx:178-183`):
stop every registered source (swallowing raises), clear the set, reset the
scheduling clock to `0` and `setIsSpeaking(false)`.  Returns the new scheduler
state and, as an observation, the registered handles after the stop pass. -/
def purge (st : SchedState) : SchedState × List SourceNode :=
  ({ nextStartTime := 0, sources := [], isSpeaking := false },
   st.sources.map tryStopSource)

/-- One Deepgram transcript event (`src/App.tsx:130-138`): the transcript text
of the first alternative and the `is_final` / `speech_final` flags. -/
structure TranscriptEvent where
  transcript : String
  is_final : Bool
  speech_final : Bool
deriving DecidableEq, Repr

/-- Embedding of the `deepgramConnection.on('transcript', ...)` handler
(`src/App.tsx:130-138`) acting on the pair (message log, interim transcript
buffer).  Empty text returns early; otherwise the buffer is overwritten, and
when both finality flags hold the text is committed with `addMessage('user')`
and the buffer cleared. -/
def onTranscript (messages : List Message) (userTranscript : String)
    (ev : TranscriptEvent) (now : Nat) : List Message × String :=
  if ev.transcript = "" then (messages, userTranscript)
  else if ev.is_final && ev.speech_final then
    (addMessage messages Role.user ev.transcript now, "")
  else
    (messages, ev.transcript)

/-- Mark a list of media-track ids as stopped (`track.stop()` for each track
of a `MediaStream`, as in `src/App.tsx:57` and `src/App.tsx:59`).  Stopping an
already-stopped track is a no-op, so the accumulator never gains a duplicate. -/
def stopTrackIds (stopped : List Nat) (ids : List Nat) : List Nat :=
  ids.foldl (fun acc i => if i ∈ acc then acc else acc ++ [i]) stopped

/-- The whole per-session component state of `App` (`src/App.tsx:13-33`):
React state, the session / connection / stream refs, the frame timer, and a
ledger of acquired and stopped media-track ids used to reason about resource
release.  `sessionOpen` stands for `sessionRef.current != null`,
`sessionPromiseSet` for `sessionPromiseRef.current != null`, `deepgramConn`
holds the ready state of the live connection when the ref is set. -/
structure AppState where
  status : ConnectionStatus
  messages : List Message
  isCapturing : Bool
  errorMsg : Option String
  userTranscript : String
  sched : SchedState
  micStream : Option (List Nat)
  videoSrcObject : Option (List Nat)
  sessionOpen : Bool
  sessionPromiseSet : Bool
  sessionClosed : Bool
  deepgramConn : Option Nat
  deepgramFinished : Bool
  captureInterval : Option Nat
  timerActive : Bool
  acquiredTracks : List Nat
  stoppedTracks : List Nat
deriving DecidableEq, Repr

/-- Embedding of `stopCapture` (`src/App.tsx:54-77`).  Field by field:
the interval is cleared only when the ref is set (`src/App.tsx:55`, the ref
itself is not nulled); the mic tracks and the tracks of the stream attached to
the video element are stopped and the element's `srcObject` nulled
(`src/App.tsx:57-60`, `micStreamRef` is not nulled); if the session ref is set
it is closed inside `try/catch` and both session refs nulled
(`src/App.tsx:62-66`); if the Deepgram ref is set it is finished and nulled
(`src/App.tsx:68-71`); finally `isCapturing`, `isSpeaking`, `status` and the
interim transcript are reset (`src/App.tsx:73-76`).  The playback clock
`nextStartTimeRef` and the source set `sourcesRef` are not touched. -/
def stopCapture (st : AppState) : AppState :=
  { st with
    timerActive := if st.captureInterval.isSome then false else st.timerActive
    stoppedTracks :=
      stopTrackIds (stopTrackIds st.stoppedTracks (st.micStream.getD []))
        (st.videoSrcObject.getD [])
    videoSrcObject := none
    sessionClosed := st.sessionClosed || st.sessionOpen
    sessionOpen := false
    sessionPromiseSet := if st.sessionOpen then false else st.sessionPromiseSet
    deepgramFinished := st.deepgramFinished || st.deepgramConn.isSome
    deepgramConn := none
    isCapturing := false
    sched := { st.sched with isSpeaking := false }
    status := ConnectionStatus.disconnected
    userTranscript := "" }

/-- The transcription-scoped error message set at `src/App.tsx:141`. -/
def deepgramErrorMsg : String :=
  "Erro na transcrição de voz. Verifique a chave da API Deepgram."

/-- The agent-connection error message set at `src/App.tsx:187`. -/
def geminiErrorMsg : String := "Conexão Gemini interrompida."

/-- Embedding of the `deepgramConnection.on('error', ...)` handler
(`src/App.tsx:139-142`): it logs and sets the transcription-scoped error
message, and nothing else. -/
def onDeepgramError (st : AppState) : AppState :=
  { st with errorMsg := some deepgramErrorMsg }

/-- Embedding of the Gemini `onerror` callback (`src/App.tsx:185-189`):
status to error, agent-scoped message, then `stopCapture()`. -/
def onGeminiError (st : AppState) : AppState :=
  stopCapture { st with status := ConnectionStatus.error
                        errorMsg := some geminiErrorMsg }

/-- Environment of one `startAnalysis` run: whether the Deepgram key is
configured (`src/App.tsx:82`), the track ids granted by the display/camera
capture and by the microphone capture (`none` models a permission or device
denial that throws), whether awaiting `ai.live.connect` succeeds
(`src/App.tsx:195`), and the `err.message` strings of the external failures. -/
structure StartEnv where
  hasDeepgramKey : Bool
  videoGrant : Option (List Nat)
  micGrant : Option (List Nat)
  connectOk : Bool
  videoErrMsg : String
  micErrMsg : String
  connectErrMsg : String
deriving DecidableEq, Repr

/-- The `catch` block of `startAnalysis` (`src/App.tsx:235-239`):
`setErrorMsg(err.message)`, `setStatus(ERROR)`, `stopCapture()` — note that
`stopCapture` then overwrites the status with `DISCONNECTED`. -/
def startCatch (st : AppState) (msg : String) : AppState :=
  stopCapture { st with errorMsg := some msg, status := ConnectionStatus.error }

/-- The Deepgram key-missing message thrown at `src/App.tsx:83`. -/
def deepgramKeyMissingMsg : String :=
  "A chave da API Deepgram não foi encontrada. Verifique suas variáveis de ambiente."

/-- Embedding of `startAnalysis` (`src/App.tsx:79-240`) as a function of the
run environment, keeping the order of the code: clear the error message, check
the Deepgram key, status to connecting, acquire the video stream (held in the
local `mediaStream` variable only), acquire the microphone and store it in
`micStreamRef`, open the Deepgram connection, create the session promise and
store it, await it; on success the `onopen` callback marks the session
connected and capturing, the video stream is attached to the video element and
the frame timer is started.  Any throw lands in `startCatch`. -/
def startAnalysis (st : AppState) (env : StartEnv) : AppState :=
  let st0 := { st with errorMsg := none }
  if ¬ env.hasDeepgramKey then startCatch st0 deepgramKeyMissingMsg
  else
    let st1 := { st0 with status := ConnectionStatus.connecting }
    match env.videoGrant with
    | none => startCatch st1 env.videoErrMsg
    | some vids =>
        let st2 := { st1 with acquiredTracks := st1.acquiredTracks ++ vids }
        match env.micGrant with
        | none => startCatch st2 env.micErrMsg
        | some mids =>
            let st3 := { st2 with
              acquiredTracks := st2.acquiredTracks ++ mids
              micStream := some mids }
            let st4 := { st3 with deepgramConn := some 0 }
            let st5 := { st4 with sessionPromiseSet := true }
            if ¬ env.connectOk then startCatch st5 env.connectErrMsg
            else
              { st5 with
                sessionOpen := true
                status := ConnectionStatus.connected
                isCapturing := true
                videoSrcObject := some vids
                captureInterval := some 1
                timerActive := true }

/-- The component state right after mount: every ref null, no messages, no
error, scheduler at rest (`src/App.tsx:13-33`). -/
def initialAppState : AppState :=
  { status := ConnectionStatus.disconnected
    messages := []
    isCapturing := false
    errorMsg := none
    userTranscript := ""
    sched := ⟨0, [], false⟩
    micStream := none
    videoSrcObject := none
    sessionOpen := false
    sessionPromiseSet := false
    sessionClosed := false
    deepgramConn := none
    deepgramFinished := false
    captureInterval := none
    timerActive := false
    acquiredTracks := []
    stoppedTracks := [] }

/-- A fully wired active session, as produced by a successful
`startAnalysis`: mic track 1, video track 2, both connections up, frame timer
running, and the agent mid-utterance with one scheduled segment and the
scheduling clock at 7 seconds. -/
def runningAppState : AppState :=
  { initialAppState with
    status := ConnectionStatus.connected
    isCapturing := true
    sched := ⟨7, [⟨0, 7, HandleStatus.playing⟩], true⟩
    micStream := some [1]
    videoSrcObject := some [2]
    sessionOpen := true
    sessionPromiseSet := true
    deepgramConn := some 1
    captureInterval := some 1
    timerActive := true
    acquiredTracks := [1, 2] }

/-- A scheduler state mid-utterance: clock at 3 s, one playing and one
already-finished source. -/
def midUtteranceSched : SchedState :=
  ⟨3, [⟨0, 2, HandleStatus.playing⟩, ⟨2, 1, HandleStatus.finished⟩], true⟩

/-- A `startAnalysis` environment in which the display capture grants tracks
10 and 11 and the microphone permission is then denied. -/
def micDeniedEnv : StartEnv :=
  { hasDeepgramKey := true
    videoGrant := some [10, 11]
    micGrant := none
    connectOk := true
    videoErrMsg := "video denied"
    micErrMsg := "Permission denied"
    connectErrMsg := "connect failed" }

/-- Fold a whole sequence of `addMessage` calls (role, text, timestamp) over
the message log, starting from the empty log the component mounts with
(`src/App.tsx:14`). -/
def foldAppends (ops : List (Role × String × Nat)) : List Message :=
  ops.foldl (fun m op => addMessage m op.1 op.2.1 op.2.2) []

/-- Outcome of the synchronous part of one frame-sampler tick
(`src/App.tsx:216-224`). -/
inductive TickPhase1 where
  | earlyReturn
  | skipNoDims
  | startEncode
deriving DecidableEq, Repr

/-- Embedding of the guard of the frame-sampler tick (`src/App.tsx:217-224`):
return early when a ref (video element, canvas, session promise) is missing;
otherwise start encoding only when a 2d context exists and the video has
decoded dimensions (`video.videoWidth > 0`); otherwise do nothing. -/
def frameTickGuard (videoPresent canvasPresent sessionPromiseSet ctxOk : Bool)
    (videoWidth : Nat) : TickPhase1 :=
  if videoPresent = false ∨ canvasPresent = false ∨ sessionPromiseSet = false then
    TickPhase1.earlyReturn
  else if ctxOk = true ∧ 0 < videoWidth then TickPhase1.startEncode
  else TickPhase1.skipNoDims

/-- Outcome of the asynchronous `canvas.toBlob` continuation of a tick
(`src/App.tsx:225-231`). -/
inductive TickSendResult where
  | noBlob
  | sent
  | typeErrorOnNullSession
deriving DecidableEq, Repr

/-- Embedding of the `toBlob` continuation (`src/App.tsx:225-231`), evaluated
when encoding completes: with no blob nothing happens; otherwise the code runs
`const session = await sessionPromiseRef.current` and calls
`session.sendRealtimeInput`.  When teardown has nulled the ref by then,
`await null` yields `null` and the method call raises a `TypeError`; the frame
is not sent, but there is no liveness check. -/
def frameTickOnBlob (blobOk : Bool) (sessionPromiseSetAtCallback : Bool) :
    TickSendResult :=
  if blobOk = false then TickSendResult.noBlob
  else if sessionPromiseSetAtCallback = true then TickSendResult.sent
  else TickSendResult.typeErrorOnNullSession

/-- Modelled from the spec: `createAudioBlob` is imported from `./utils`,
which is not under `src/`.  Per the spec (§4.3, §6) each microphone block is
converted to the agent's required 16-bit PCM encoding at 16 kHz; we model the
conversion sample-wise as scaling a unit-range sample to the signed 16-bit
range and clamping. -/
def pcm16OfSample (s : ℚ) : ℤ :=
  max (-32768) (min 32767 ⌊s * 32768⌋)

/-- Modelled from the spec: the payload produced by `createAudioBlob`
(`./utils`, not under `src/`) — the 16-bit PCM samples and the PCM mime type
at the agent's input rate. -/
structure AudioBlob where
  data : List ℤ
  mimeType : String
deriving DecidableEq, Repr

/-- Modelled from the spec: `createAudioBlob` (`./utils`, not under `src/`)
converts one captured block to the agent's 16-bit PCM encoding. -/
def createAudioBlob (block : List ℚ) : AudioBlob :=
  ⟨block.map pcm16OfSample, "audio/pcm;rate=16000"⟩

/-- What one `onaudioprocess` callback sends where (`src/App.tsx:204-212`). -/
structure SendLog where
  toAgent : Option AudioBlob
  toDeepgram : Option (List ℚ)
deriving DecidableEq, Repr

/-- Embedding of `processor.onaudioprocess` (`src/App.tsx:204-212`): the block
is converted with `createAudioBlob` and sent to the agent session
unconditionally; the raw block is sent to Deepgram only when the connection
ref is set and `getReadyState()` is `1` (OPEN). -/
def onaudioprocess (deepgramConn : Option Nat) (block : List ℚ) : SendLog :=
  { toAgent := some (createAudioBlob block)
    toDeepgram :=
      match deepgramConn with
      | some s => if s = 1 then some block else none
      | none => none }

/-! Helper lemmas about the embedded operations. -/

theorem stopTrackIds_cons (s : List Nat) (i : Nat) (tl : List Nat) :
    stopTrackIds s (i :: tl) = stopTrackIds (if i ∈ s then s else s ++ [i]) tl := rfl

theorem mem_stopTrackIds_left {a : Nat} {s : List Nat} (ids : List Nat)
    (h : a ∈ s) : a ∈ stopTrackIds s ids := by
  induction ids generalizing s with
  | nil => exact h
  | cons i tl ih =>
      rw [stopTrackIds_cons]
      apply ih
      by_cases hi : i ∈ s
      · rw [if_pos hi]; exact h
      · rw [if_neg hi]
        exact List.mem_append_left _ h

theorem mem_stopTrackIds_right {a : Nat} {ids : List Nat} (s : List Nat)
    (h : a ∈ ids) : a ∈ stopTrackIds s ids := by
  induction ids generalizing s with
  | nil => cases h
  | cons i tl ih =>
      rw [stopTrackIds_cons]
      rcases List.mem_cons.1 h with rfl | htl
      · apply mem_stopTrackIds_left
        by_cases hi : a ∈ s
        · rw [if_pos hi]; exact hi
        · rw [if_neg hi]
          exact List.mem_append_right _ (List.mem_singleton.2 rfl)
      · exact ih _ htl

theorem stopTrackIds_eq_self {s : List Nat} {ids : List Nat}
    (h : ∀ a ∈ ids, a ∈ s) : stopTrackIds s ids = s := by
  induction ids with
  | nil => rfl
  | cons i tl ih =>
      rw [stopTrackIds_cons, if_pos (h i (List.mem_cons_self i tl))]
      exact ih fun a ha => h a (List.mem_cons_of_mem _ ha)

theorem stopTrackIds_absorb (s ids more : List Nat) :
    stopTrackIds (stopTrackIds (stopTrackIds s ids) more) ids
      = stopTrackIds (stopTrackIds s ids) more :=
  stopTrackIds_eq_self fun _ ha =>
    mem_stopTrackIds_left _ (mem_stopTrackIds_right _ ha)

theorem slice5_length_eq (l : List Message) : (slice5 l).length = min l.length 5 := by
  simp only [slice5, List.length_drop]
  omega

theorem slice5_length_le (l : List Message) : (slice5 l).length ≤ 5 := by
  rw [slice5_length_eq]; omega

theorem addMessage_length_le (m : List Message) (r : Role) (t : String) (n : Nat)
    (h : m.length ≤ 5) : (addMessage m r t n).length ≤ 5 := by
  unfold addMessage
  split
  · exact h
  · split
    · split
      · exact slice5_length_le _
      · exact slice5_length_le _
    · exact slice5_length_le _

theorem addMessage_user (msgs : List Message) (t : String) (n : Nat)
    (h : t ≠ "") :
    addMessage msgs Role.user t n = slice5 (msgs ++ [⟨Role.user, t, n⟩]) := by
  unfold addMessage
  rw [if_neg h]
  cases hl : msgs.getLast? with
  | none => rfl
  | some last =>
      have hc : ¬ (last.role = Role.user ∧ Role.user = Role.assistant) := by simp
      simp [hc]

theorem runEnqueues_cons (st : SchedState) (t d : ℚ) (rest : List (ℚ × ℚ)) :
    (runEnqueues st ((t, d) :: rest)).2
      = max st.nextStartTime t :: (runEnqueues (enqueue st t d).1 rest).2 := rfl

theorem enqueue_fst_nextStartTime (st : SchedState) (t d : ℚ) :
    (enqueue st t d).1.nextStartTime = max st.nextStartTime t + d := rfl

/-! Claim theorems. -/

/-- C1 counterexample.  The claim says that with no intervening purge each
segment starts exactly at the end of the previous one.  Enqueue a 1-second
segment at transport clock 0, then enqueue another after the clock has
advanced to 5: the code (`src/App.tsx:163`) schedules the second segment at
`max(0 + 1, 5) = 5`, not at the end `0 + 1` of the first segment, so the claim
fails — a gap appears when the transport clock overtakes the scheduling
clock. -/
theorem c1_counterexample :
    ¬ ((runEnqueues ⟨0, [], false⟩ [(0, 1), (5, 1)]).2 = [0, 0 + 1]) ∧
    (runEnqueues ⟨0, [], false⟩ [(0, 1), (5, 1)]).2 = [0, 5] := by
  norm_num [runEnqueues, enqueue, max_def]

/-- C1 (amended): for every sequence of audio-delta enqueues with no
intervening purge, the scheduled starts are non-decreasing and segments never
overlap — segment i+1 starts at `max(end_i, clock_{i+1})`, which equals the
end of segment i exactly when the transport clock has not passed that end;
when the clock has overtaken it there is a gap but still no overlap.  Stated
over the list pairing each scheduled start with its `(clock, duration)`
enqueue event. -/
theorem c1_schedule_amended (st : SchedState) (evs : List (ℚ × ℚ))
    (hd : ∀ p ∈ evs, 0 ≤ p.2) :
    List.Chain' (fun a b : ℚ × (ℚ × ℚ) =>
        b.1 = max (a.1 + a.2.2) b.2.1 ∧ a.1 ≤ b.1 ∧ a.1 + a.2.2 ≤ b.1)
      (((runEnqueues st evs).2).zip evs) := by
  induction evs generalizing st with
  | nil => simp [runEnqueues]
  | cons e rest ih =>
      obtain ⟨t, d⟩ := e
      rw [runEnqueues_cons]
      cases rest with
      | nil => simp [runEnqueues]
      | cons e2 rest2 =>
          obtain ⟨t2, d2⟩ := e2
          have hd0 : (0 : ℚ) ≤ d := hd (t, d) (List.mem_cons_self _ _)
          have htail := ih ((enqueue st t d).1)
            (fun p hp => hd p (List.mem_cons_of_mem _ hp))
          rw [runEnqueues_cons] at htail ⊢
          rw [List.zip_cons_cons] at htail
          rw [List.zip_cons_cons, List.zip_cons_cons]
          rw [List.chain'_cons]
          refine ⟨⟨?_, ?_, ?_⟩, htail⟩
          · rw [enqueue_fst_nextStartTime]
          · rw [enqueue_fst_nextStartTime]
            exact le_trans (le_add_of_nonneg_right hd0) (le_max_left _ _)
          · rw [enqueue_fst_nextStartTime]
            exact le_max_left _ _

/-- C1 witness: two 2-second and 1.5-second segments enqueued back to back at
transport clock 0 are scheduled at 0 and 2 — contiguous, non-decreasing,
non-overlapping. -/
theorem c1_schedule_amended_witness :
    List.Chain' (fun a b : ℚ × (ℚ × ℚ) =>
        b.1 = max (a.1 + a.2.2) b.2.1 ∧ a.1 ≤ b.1 ∧ a.1 + a.2.2 ≤ b.1)
      (((runEnqueues ⟨0, [], false⟩ [(0, 2), (0, 3/2)]).2).zip
        [(0, 2), (0, 3/2)]) :=
  c1_schedule_amended ⟨0, [], false⟩ [(0, 2), (0, 3/2)]
    (by
      intro p hp
      simp only [List.mem_cons, List.not_mem_nil, or_false] at hp
      rcases hp with rfl | rfl <;> norm_num)

/-- C2: the `interrupted` handler stops every playing handle, leaves
already-finished handles untouched without raising (the stop is wrapped in
`try/catch`), leaves no registered handle playing, clears the active set,
resets the scheduling clock to 0 and signals "finished speaking"; and any
enqueue that follows a purge is scheduled at or after the transport clock it
observes. -/
theorem c2_purge_and_reenqueue (st : SchedState) (t d : ℚ) :
    (purge st).1.nextStartTime = 0 ∧
    (purge st).1.sources = [] ∧
    (purge st).1.isSpeaking = false ∧
    (∀ h ∈ st.sources, h.status = HandleStatus.playing →
        (tryStopSource h).status = HandleStatus.stopped) ∧
    (∀ h ∈ st.sources, h.status = HandleStatus.finished → tryStopSource h = h) ∧
    (∀ h ∈ (purge st).2, h.status ≠ HandleStatus.playing) ∧
    t ≤ (enqueue (purge st).1 t d).2 := by
  refine ⟨rfl, rfl, rfl, ?_, ?_, ?_, ?_⟩
  · intro h _ hp
    simp [tryStopSource, stopSource, hp]
  · intro h _ hf
    simp [tryStopSource, stopSource, hf]
  · intro h hm
    obtain ⟨h0, _, rfl⟩ := List.mem_map.1 hm
    cases hs : h0.status <;> simp [tryStopSource, stopSource, hs]
  · show t ≤ max (0 : ℚ) t
    exact le_max_right _ _

/-- C2 witness: purging the mid-utterance scheduler stops its playing source,
leaves the finished one as is, empties the set, zeroes the clock, stops the
speaking indicator, and an enqueue at transport clock 4 is scheduled at or
after 4. -/
theorem c2_purge_and_reenqueue_witness :
    (purge midUtteranceSched).1.nextStartTime = 0 ∧
    (purge midUtteranceSched).1.sources = [] ∧
    (purge midUtteranceSched).1.isSpeaking = false ∧
    (tryStopSource ⟨0, 2, HandleStatus.playing⟩).status = HandleStatus.stopped ∧
    tryStopSource ⟨2, 1, HandleStatus.finished⟩ = ⟨2, 1, HandleStatus.finished⟩ ∧
    (4 : ℚ) ≤ (enqueue (purge midUtteranceSched).1 4 1).2 := by
  obtain ⟨h1, h2, h3, h4, h5, _, h7⟩ := c2_purge_and_reenqueue midUtteranceSched 4 1
  exact ⟨h1, h2, h3,
    h4 _ (by simp [midUtteranceSched]) rfl,
    h5 _ (by simp [midUtteranceSched]) rfl, h7⟩

/-- C3: for every transcript event, empty text is ignored entirely; non-empty
text drives the interim buffer (overwritten, or cleared when committed); and a
new user entry is committed and the buffer cleared exactly when both
`is_final` and `speech_final` hold — in particular `is_final` alone commits
nothing and only overwrites the buffer. -/
theorem c3_transcript_gate (msgs : List Message) (buf : String)
    (ev : TranscriptEvent) (now : Nat) :
    (ev.transcript = "" → onTranscript msgs buf ev now = (msgs, buf)) ∧
    (ev.transcript ≠ "" →
      ((ev.is_final && ev.speech_final) = true →
          onTranscript msgs buf ev now
            = (slice5 (msgs ++ [⟨Role.user, ev.transcript, now⟩]), "")) ∧
      ((ev.is_final && ev.speech_final) = false →
          onTranscript msgs buf ev now = (msgs, ev.transcript))) := by
  refine ⟨fun he => by simp [onTranscript, he], fun hne => ⟨fun hff => ?_, fun hff => ?_⟩⟩
  · simp only [onTranscript, if_neg hne, hff, if_true]
    rw [addMessage_user msgs ev.transcript now hne]
  · simp [onTranscript, hne, hff]

/-- C3 witness, replaying the spec's example: `is_final` without
`speech_final` only updates the interim buffer, and the doubly-final event
commits exactly one user entry and clears the buffer. -/
theorem c3_transcript_gate_witness :
    onTranscript [] "oportun" ⟨"oportunidade de compra", true, false⟩ 7
      = ([], "oportunidade de compra") ∧
    onTranscript [] "oportunidade de compra" ⟨"oportunidade de compra", true, true⟩ 7
      = (slice5 ([] ++ [⟨Role.user, "oportunidade de compra", 7⟩]), "") := by
  refine ⟨?_, ?_⟩
  · exact ((c3_transcript_gate [] "oportun" ⟨"oportunidade de compra", true, false⟩ 7).2
      (by decide)).2 (by decide)
  · exact ((c3_transcript_gate [] "oportunidade de compra"
      ⟨"oportunidade de compra", true, true⟩ 7).2 (by decide)).1 (by decide)

/-- C4 counterexample.  The claim says every append either merges into a
trailing assistant entry or appends a new entry, but `addMessage` returns
early on empty text (`src/App.tsx:42`): appending an empty assistant text to
the empty log appends nothing, while the claim predicts a fresh entry. -/
theorem c4_counterexample :
    addMessage [] Role.assistant "" 0 = [] ∧
    slice5 ([] ++ [⟨Role.assistant, "", 0⟩]) ≠ [] := by
  exact ⟨rfl, by decide⟩

/-- C4 (amended): an append of empty text is ignored and changes nothing; for
every append of non-empty text, if the entry's role is assistant and the last
stored entry's role is assistant, the text is concatenated into that entry in
place (the log does not grow — two consecutive assistant appends yield one
entry); otherwise — user role, empty log, or a last entry that is not an
assistant entry, as after an intervening user append — a new entry is
appended.  Both outcomes are truncated to the five most recent entries. -/
theorem c4_merge_amended (prev : List Message) (role : Role) (text : String)
    (now : Nat) :
    (text = "" → addMessage prev role text now = prev) ∧
    (text ≠ "" →
      (∀ last, prev.getLast? = some last → last.role = role →
          role = Role.assistant →
          addMessage prev role text now
            = slice5 (prev.dropLast ++ [{ last with text := last.text ++ text }]) ∧
          (addMessage prev role text now).length = min prev.length 5) ∧
      ((role = Role.assistant →
          ∀ last, prev.getLast? = some last → last.role ≠ Role.assistant) →
          addMessage prev role text now = slice5 (prev ++ [⟨role, text, now⟩]) ∧
          (addMessage prev role text now).length = min (prev.length + 1) 5)) := by
  refine ⟨fun he => by simp [addMessage, he], fun hne => ⟨?_, ?_⟩⟩
  · intro last hl hrole hassist
    have hprev : prev ≠ [] := by
      intro h
      rw [h] at hl
      exact Option.noConfusion hl
    have heq : addMessage prev role text now
        = slice5 (prev.dropLast ++ [{ last with text := last.text ++ text }]) := by
      unfold addMessage
      rw [if_neg hne, hl]
      show (if last.role = role ∧ role = Role.assistant
          then slice5 (prev.dropLast ++ [{ last with text := last.text ++ text }])
          else slice5 (prev ++ [⟨role, text, now⟩])) = _
      rw [if_pos ⟨hrole, hassist⟩]
    refine ⟨heq, ?_⟩
    rw [heq, slice5_length_eq, List.length_append, List.length_dropLast,
      List.length_singleton]
    have : 1 ≤ prev.length := List.length_pos.2 hprev
    omega
  · intro hno
    have heq : addMessage prev role text now
        = slice5 (prev ++ [⟨role, text, now⟩]) := by
      unfold addMessage
      rw [if_neg hne]
      cases hl : prev.getLast? with
      | none => rfl
      | some last =>
          have hcond : ¬ (last.role = role ∧ role = Role.assistant) := by
            rintro ⟨h1, h2⟩
            exact hno h2 last hl (h1.trans h2)
          show (if last.role = role ∧ role = Role.assistant
              then slice5 (prev.dropLast ++ [{ last with text := last.text ++ text }])
              else slice5 (prev ++ [⟨role, text, now⟩])) = _
          rw [if_neg hcond]
    refine ⟨heq, ?_⟩
    rw [heq, slice5_length_eq, List.length_append, List.length_singleton]

/-- C4 witness: a second assistant delta is concatenated into the trailing
assistant entry without adding a row, and a user text after an assistant entry
is appended as a new row. -/
theorem c4_merge_amended_witness :
    addMessage [⟨Role.assistant, "OPORTUNIDADE", 3⟩] Role.assistant " DETECTADA" 9
      = slice5 ([⟨Role.assistant, "OPORTUNIDADE", 3⟩].dropLast
          ++ [⟨Role.assistant, "OPORTUNIDADE" ++ " DETECTADA", 3⟩]) ∧
    (addMessage [⟨Role.assistant, "OPORTUNIDADE", 3⟩] Role.assistant " DETECTADA" 9).length
      = min 1 5 ∧
    addMessage [⟨Role.assistant, "OPORTUNIDADE DETECTADA", 3⟩] Role.user "compra" 12
      = slice5 ([⟨Role.assistant, "OPORTUNIDADE DETECTADA", 3⟩]
          ++ [⟨Role.user, "compra", 12⟩]) := by
  obtain ⟨hm1, hm2⟩ :=
    ((c4_merge_amended [⟨Role.assistant, "OPORTUNIDADE", 3⟩] Role.assistant
        " DETECTADA" 9).2 (by decide)).1
      ⟨Role.assistant, "OPORTUNIDADE", 3⟩ rfl rfl rfl
  refine ⟨hm1, hm2, ?_⟩
  exact (((c4_merge_amended [⟨Role.assistant, "OPORTUNIDADE DETECTADA", 3⟩]
      Role.user "compra" 12).2 (by decide)).2 (fun h => by cases h)).1

/-- C5: for every sequence of appends of any length, any roles and any texts,
the message log built from the empty log holds at most five entries after each
mutation (instantiate the sequence at each prefix). -/
theorem c5_log_bounded (ops : List (Role × String × Nat)) :
    (foldAppends ops).length ≤ 5 := by
  have key : ∀ (l : List (Role × String × Nat)) (m : List Message),
      m.length ≤ 5 →
      (l.foldl (fun m op => addMessage m op.1 op.2.1 op.2.2) m).length ≤ 5 := by
    intro l
    induction l with
    | nil => exact fun m hm => hm
    | cons op tl ih =>
        intro m hm
        exact ih _ (addMessage_length_le m op.1 op.2.1 op.2.2 hm)
  exact key ops [] (by simp)

theorem stopTrackIds_nil (s : List Nat) : stopTrackIds s [] = s := rfl

theorem stopCapture_idem (st : AppState) :
    stopCapture (stopCapture st) = stopCapture st := by
  obtain ⟨status, messages, isCapturing, errorMsg, userTranscript, sched, mic,
    vid, so, sp, sc, dg, dgf, ci, ta, aq, stt⟩ := st
  cases ci <;> cases so <;> cases dg <;>
    simp [stopCapture, stopTrackIds_nil, stopTrackIds_absorb]

/-- C6 counterexample.  The claim says `stop()` resets the PlaybackScheduler
state, but `stopCapture` (`src/App.tsx:54-77`) never touches
`nextStartTimeRef` or `sourcesRef`: stopping the running session whose
scheduling clock is at 7 with one registered source leaves both exactly as
they were, so neither the clock is reset to 0 nor the active set emptied. -/
theorem c6_counterexample :
    ¬ ((stopCapture runningAppState).sched.nextStartTime = 0 ∧
       (stopCapture runningAppState).sched.sources = []) := by
  intro h
  have h7 : (stopCapture runningAppState).sched.nextStartTime = 7 := rfl
  rw [h7] at h
  exact absurd h.1 (by norm_num)

/-- C6 (amended): `stopCapture` is idempotent — a second call from the
already-stopped state changes nothing — and from any state it cancels the
frame timer, stops every track of the mic stream and of the stream attached
to the video element and detaches the latter, closes the agent session
(nulling both session refs) and finishes the Deepgram connection when they
are set, and resets the interim transcript buffer and the session flags
(`isCapturing`, `isSpeaking`, status back to disconnected).  It does not
reset the PlaybackScheduler state: the scheduling clock and the registered
source set survive `stop()` untouched. -/
theorem c6_stop_amended (st : AppState)
    (hwf : st.timerActive = true → st.captureInterval.isSome = true) :
    stopCapture (stopCapture st) = stopCapture st ∧
    (stopCapture st).timerActive = false ∧
    (∀ i ∈ st.micStream.getD [], i ∈ (stopCapture st).stoppedTracks) ∧
    (∀ i ∈ st.videoSrcObject.getD [], i ∈ (stopCapture st).stoppedTracks) ∧
    (stopCapture st).videoSrcObject = none ∧
    (stopCapture st).sessionOpen = false ∧
    (st.sessionOpen = true → (stopCapture st).sessionClosed = true ∧
        (stopCapture st).sessionPromiseSet = false) ∧
    (stopCapture st).deepgramConn = none ∧
    (st.deepgramConn.isSome = true → (stopCapture st).deepgramFinished = true) ∧
    (stopCapture st).isCapturing = false ∧
    (stopCapture st).sched.isSpeaking = false ∧
    (stopCapture st).status = ConnectionStatus.disconnected ∧
    (stopCapture st).userTranscript = "" ∧
    (stopCapture st).sched.nextStartTime = st.sched.nextStartTime ∧
    (stopCapture st).sched.sources = st.sched.sources := by
  refine ⟨stopCapture_idem st, ?_, ?_, ?_, rfl, rfl, ?_, rfl, ?_, rfl, rfl, rfl,
    rfl, rfl, rfl⟩
  · cases hci : st.captureInterval with
    | none =>
        have hta : st.timerActive = false := by
          cases h : st.timerActive
          · rfl
          · have := hwf h
            rw [hci] at this
            exact Bool.noConfusion this
        simp [stopCapture, hci, hta]
    | some k => simp [stopCapture, hci]
  · intro i hi
    exact mem_stopTrackIds_left _ (mem_stopTrackIds_right _ hi)
  · intro i hi
    exact mem_stopTrackIds_right _ hi
  · intro hso
    simp [stopCapture, hso]
  · intro hdg
    simp [stopCapture, hdg]

/-- C6 witness: stopping the running session twice equals stopping it once;
the stop cancels the timer, stops the mic track 1 and the attached video
track 2, detaches the stream, closes both connections and resets the flags —
while the scheduling clock stays at 7 and the registered source survives. -/
theorem c6_stop_amended_witness :
    stopCapture (stopCapture runningAppState) = stopCapture runningAppState ∧
    (stopCapture runningAppState).timerActive = false ∧
    1 ∈ (stopCapture runningAppState).stoppedTracks ∧
    2 ∈ (stopCapture runningAppState).stoppedTracks ∧
    (stopCapture runningAppState).videoSrcObject = none ∧
    (stopCapture runningAppState).sessionOpen = false ∧
    (stopCapture runningAppState).sessionClosed = true ∧
    (stopCapture runningAppState).sessionPromiseSet = false ∧
    (stopCapture runningAppState).deepgramConn = none ∧
    (stopCapture runningAppState).deepgramFinished = true ∧
    (stopCapture runningAppState).isCapturing = false ∧
    (stopCapture runningAppState).sched.isSpeaking = false ∧
    (stopCapture runningAppState).status = ConnectionStatus.disconnected ∧
    (stopCapture runningAppState).userTranscript = "" ∧
    (stopCapture runningAppState).sched.nextStartTime = 7 ∧
    (stopCapture runningAppState).sched.sources
      = [⟨0, 7, HandleStatus.playing⟩] := by
  obtain ⟨h1, h2, h3, h4, h5, h6, h7, h8, h9, h10, h11, h12, h13, h14, h15⟩ :=
    c6_stop_amended runningAppState (fun _ => rfl)
  obtain ⟨h7a, h7b⟩ := h7 rfl
  exact ⟨h1, h2, h3 1 (by simp [runningAppState, initialAppState]),
    h4 2 (by simp [runningAppState, initialAppState]),
    h5, h6, h7a, h7b, h8, h9 rfl, h10, h11, h12, h13, h14, h15⟩

/-- C7: evaluation of the code at the failing input.  Screen capture grants
tracks 10 and 11, then the microphone permission is denied: the catch block
surfaces the failure message and runs `stopCapture`, but the display stream
was held only in the local `mediaStream` variable (`src/App.tsx:112-117`) and
is attached to the video element only much later (`src/App.tsx:197-199`), so
`stopCapture` — which reaches only `micStreamRef` and `videoRef.srcObject`
(`src/App.tsx:57-59`) — stops nothing: tracks 10 and 11 stay live after the
failed start, and the transient Error status has been overwritten with
Disconnected by `stopCapture` itself. -/
theorem c7_start_leak :
    (startAnalysis initialAppState micDeniedEnv).errorMsg
      = some "Permission denied" ∧
    (startAnalysis initialAppState micDeniedEnv).isCapturing = false ∧
    (startAnalysis initialAppState micDeniedEnv).status
      = ConnectionStatus.disconnected ∧
    10 ∈ (startAnalysis initialAppState micDeniedEnv).acquiredTracks ∧
    11 ∈ (startAnalysis initialAppState micDeniedEnv).acquiredTracks ∧
    (startAnalysis initialAppState micDeniedEnv).stoppedTracks = [] := by
  refine ⟨rfl, rfl, rfl, ?_, ?_, rfl⟩
  · show 10 ∈ [10, 11]
    simp
  · show 11 ∈ [10, 11]
    simp

/-- C8 counterexample.  The claim says a transcription-connection error
triggers full session teardown, but the handler (`src/App.tsx:139-142`) only
sets the error message: on the running session it leaves capture on, the
agent session open, the frame timer running, the mic stream referenced, no
track stopped and the Deepgram connection itself untouched. -/
theorem c8_counterexample :
    (onDeepgramError runningAppState).errorMsg = some deepgramErrorMsg ∧
    (onDeepgramError runningAppState).isCapturing = true ∧
    (onDeepgramError runningAppState).sessionOpen = true ∧
    (onDeepgramError runningAppState).timerActive = true ∧
    (onDeepgramError runningAppState).micStream = some [1] ∧
    (onDeepgramError runningAppState).stoppedTracks = [] ∧
    (onDeepgramError runningAppState).deepgramConn = some 1 :=
  ⟨rfl, rfl, rfl, rfl, rfl, rfl, rfl⟩

/-- C8 (amended): when the transcription connection reports an error, a
distinct transcription-scoped message is surfaced — different from the agent
connection's message — and nothing else changes: no media stop, no connection
close, no timer cancellation; the session keeps running. -/
theorem c8_no_teardown_amended (st : AppState) :
    (onDeepgramError st).errorMsg = some deepgramErrorMsg ∧
    deepgramErrorMsg ≠ geminiErrorMsg ∧
    (onDeepgramError st).status = st.status ∧
    (onDeepgramError st).isCapturing = st.isCapturing ∧
    (onDeepgramError st).micStream = st.micStream ∧
    (onDeepgramError st).videoSrcObject = st.videoSrcObject ∧
    (onDeepgramError st).sessionOpen = st.sessionOpen ∧
    (onDeepgramError st).sessionPromiseSet = st.sessionPromiseSet ∧
    (onDeepgramError st).deepgramConn = st.deepgramConn ∧
    (onDeepgramError st).captureInterval = st.captureInterval ∧
    (onDeepgramError st).timerActive = st.timerActive ∧
    (onDeepgramError st).stoppedTracks = st.stoppedTracks ∧
    (onDeepgramError st).sched = st.sched := by
  refine ⟨rfl, ?_, rfl, rfl, rfl, rfl, rfl, rfl, rfl, rfl, rfl, rfl, rfl⟩
  decide

/-- C9 counterexample.  The claim says that when the session has closed by
the time encoding completes, the frame is discarded by a liveness check
rather than sent or raising an error.  With a blob present and the session
promise ref already nulled by teardown, the continuation
(`src/App.tsx:225-231`) neither performs a guarded silent discard nor sends:
it raises a `TypeError` by calling `sendRealtimeInput` on the `null` obtained
from `await sessionPromiseRef.current`. -/
theorem c9_counterexample :
    ¬ (frameTickOnBlob true false ≠ TickSendResult.sent ∧
       frameTickOnBlob true false ≠ TickSendResult.typeErrorOnNullSession) := by
  decide

/-- C9 (amended): a tick whose video surface has no decoded dimensions never
starts an encode (it is skipped silently with no send), and once teardown has
nulled the session promise ref the encoded frame is never sent — but the
discard happens through a `TypeError` on the null session reference (an
unhandled rejection), not through a silent liveness check. -/
theorem c9_tick_amended (v c s ctxOk b : Bool) :
    frameTickGuard v c s ctxOk 0 ≠ TickPhase1.startEncode ∧
    frameTickOnBlob b false ≠ TickSendResult.sent ∧
    frameTickOnBlob true false = TickSendResult.typeErrorOnNullSession := by
  cases v <;> cases c <;> cases s <;> cases ctxOk <;> cases b <;> decide

/-- C10: every captured microphone block is converted to 16-bit PCM (every
emitted sample lies in the signed 16-bit range) and forwarded to the agent
connection unconditionally, and the same raw block is forwarded to the
transcription connection exactly when its ready state is 1 (Open) at that
moment — a null ref or any other ready state sends nothing to it. -/
theorem c10_audio_fanout (dg : Option Nat) (block : List ℚ) :
    (onaudioprocess dg block).toAgent = some (createAudioBlob block) ∧
    ((onaudioprocess dg block).toDeepgram = some block ↔ dg = some 1) ∧
    ((createAudioBlob block).data.all
        fun x => decide (-32768 ≤ x) && decide (x ≤ 32767)) = true := by
  refine ⟨rfl, ?_, ?_⟩
  · cases dg with
    | none => simp [onaudioprocess]
    | some s =>
        by_cases hs : s = 1
        · subst hs
          simp [onaudioprocess]
        · simp [onaudioprocess, hs]
  · rw [List.all_eq_true]
    intro x hx
    simp only [createAudioBlob, List.mem_map] at hx
    obtain ⟨q, _, rfl⟩ := hx
    simp only [Bool.and_eq_true, decide_eq_true_eq]
    constructor
    · exact le_max_left _ _
    · exact max_le (by norm_num) (min_le_left _ _)
